import Mathlib

/-!
Shallow embedding of the suiflash-bot routing core
(src/suiflash-bot/src/{config,collectors,strategies,executors,main}.rs).

Machine integers: `u64` values are modelled as `Nat`; where the Rust code
can overflow or truncate (the fee arithmetic of `calculate_cost`), the
narrowing `as u64` cast is modelled explicitly as `% 2 ^ 64` and the
`u64` addition as wrapping addition mod `2 ^ 64` (release-profile
semantics; at every concrete input used below the addition itself stays
below `2 ^ 64`, so debug and release profiles agree there).  `u128`
intermediates are exact, since the product of two `u64` values always
fits in `u128`.
-/

namespace SuiFlash

/-- The modulus `2 ^ 64` of Rust `u64` arithmetic. -/
def U64_MOD : Nat := 2 ^ 64

/-- config.rs: `enum Protocol \x7b Navi = 0, Bucket = 1, Scallop = 2 \x7d`. -/
inductive Protocol where
  | Navi
  | Bucket
  | Scallop
deriving DecidableEq, Repr

/-- The integer discriminant of `Protocol`, as produced by Rust `as u64` /
`as u8` casts (config.rs assigns `Navi = 0, Bucket = 1, Scallop = 2`). -/
def Protocol.discriminant : Protocol → Nat
  | .Navi => 0
  | .Bucket => 1
  | .Scallop => 2

/-- serde_json serialization of `Protocol` (a plain unit-variant enum with
derived `Serialize`: the wire form is the JSON string of the variant name,
quotes included). -/
def serializeProtocol : Protocol → String
  | .Navi => "\"Navi\""
  | .Bucket => "\"Bucket\""
  | .Scallop => "\"Scallop\""

/-- serde_json deserialization of `Protocol` (derived `Deserialize` of a
unit-variant enum accepts exactly the variant-name strings). -/
def deserializeProtocol (s : String) : Option Protocol :=
  if s = "\"Navi\"" then some Protocol.Navi
  else if s = "\"Bucket\"" then some Protocol.Bucket
  else if s = "\"Scallop\"" then some Protocol.Scallop
  else none

/-- config.rs: `struct ProtocolData`. -/
structure ProtocolData where
  protocol : Protocol
  fee_bps : Nat
  available_liquidity : Nat
  last_updated : Nat
deriving DecidableEq, Repr

/-- config.rs: `enum RouteMode`. -/
inductive RouteMode where
  | Explicit
  | BestCost
  | BestLiquidity
deriving DecidableEq, Repr

/-- config.rs: `struct FlashLoanRequest`. -/
structure FlashLoanRequest where
  asset : String
  amount : Nat
  route_mode : RouteMode
  explicit_protocol : Option Protocol
  user_operation : String
  callback_recipient : Option String
  callback_payload : Option String
deriving DecidableEq, Repr

/-- config.rs: `struct Config` (string fields are opaque configuration
values; only `strategy` and `service_fee_bps` feed the modelled logic). -/
structure Config where
  sui_rpc_url : String
  private_key : String
  sui_flash_package_id : String
  sui_flash_config_object_id : String
  server_port : Nat
  refresh_interval_ms : Nat
  strategy : String
  contract_package_id : String
  navi_package_id : String
  bucket_package_id : String
  scallop_package_id : String
  service_fee_bps : Nat
deriving DecidableEq, Repr

/-- strategies.rs: `struct ExecutionPlan`. -/
structure ExecutionPlan where
  protocol : Protocol
  amount : Nat
  total_cost : Nat
  user_operation : String
  callback_recipient : Option String
  callback_payload : Option String
deriving DecidableEq, Repr

/-- A point-in-time view of the collector's `HashMap<Protocol, ProtocolData>`,
modelled as an association list; the list order stands for the map's
(unspecified) iteration order. -/
abbrev Snapshot := List (Protocol × ProtocolData)

/-- Reading `HashMap::get` on a snapshot: the collector's `get_protocol_data`
(collectors.rs) reads the entry stored under `p`. -/
def lookupProtocol (snapshot : Snapshot) (p : Protocol) : Option ProtocolData :=
  (snapshot.find? (fun pd => pd.1 = p)).map Prod.snd

/-- The typed errors behind the `eyre::bail!` / `eyre::eyre!` failure
messages of strategies.rs. -/
inductive RoutingError where
  /-- strategies.rs `find_best_protocol`: "No protocol has sufficient liquidity for amount". -/
  | insufficientLiquidity (amount : Nat)
  /-- strategies.rs `calculate_cost` / `override_protocol`: "No data available for protocol". -/
  | noData (protocol : Protocol)
  /-- strategies.rs `override_protocol`: "Protocol ... insufficient liquidity". -/
  | protocolInsufficientLiquidity (protocol : Protocol)
deriving DecidableEq, Repr

/-- strategies.rs `find_best_protocol`, filter step:
`protocol_data.iter().filter(|(_, data)| data.available_liquidity >= request.amount)`. -/
def viable_protocols (snapshot : Snapshot) (amount : Nat) : Snapshot :=
  snapshot.filter (fun pd => amount ≤ pd.2.available_liquidity)

/-- Rust `Iterator::min_by_key` keyed on `fee_bps`: returns the FIRST
element attaining the minimal key (ties keep the earlier element). -/
def minByFee : Snapshot → Option (Protocol × ProtocolData)
  | [] => none
  | x :: xs =>
    match minByFee xs with
    | none => some x
    | some y => if x.2.fee_bps ≤ y.2.fee_bps then some x else some y

/-- Rust `Iterator::max_by_key` keyed on `available_liquidity`: returns the
LAST element attaining the maximal key (ties keep the later element). -/
def maxByLiquidity : Snapshot → Option (Protocol × ProtocolData)
  | [] => none
  | x :: xs =>
    match maxByLiquidity xs with
    | none => some x
    | some y => if y.2.available_liquidity < x.2.available_liquidity then some x else some y

/-- strategies.rs `find_cheapest_protocol`:
`protocols.iter().min_by_key(|(_, data)| data.fee_bps).map(|(p, _)| **p).unwrap_or(Protocol::Navi)`. -/
def find_cheapest_protocol (protocols : Snapshot) : Protocol :=
  ((minByFee protocols).map Prod.fst).getD Protocol.Navi

/-- strategies.rs `find_highest_liquidity_protocol`:
`protocols.iter().max_by_key(|(_, data)| data.available_liquidity).map(|(p, _)| **p).unwrap_or(Protocol::Navi)`. -/
def find_highest_liquidity_protocol (protocols : Snapshot) : Protocol :=
  ((maxByLiquidity protocols).map Prod.fst).getD Protocol.Navi

/-- strategies.rs `find_best_protocol`: filter the viable set, bail if it is
empty, then dispatch on `config.strategy` ("cheapest" / "highest_liquidity" /
default-to-cheapest).  The snapshot argument is the iteration sequence of
`get_all_protocol_data()`. -/
def find_best_protocol (config : Config) (snapshot : Snapshot)
    (request : FlashLoanRequest) : Except RoutingError Protocol :=
  let viable := viable_protocols snapshot request.amount
  if viable.isEmpty then
    .error (.insufficientLiquidity request.amount)
  else if config.strategy = "cheapest" then
    .ok (find_cheapest_protocol viable)
  else if config.strategy = "highest_liquidity" then
    .ok (find_highest_liquidity_protocol viable)
  else
    .ok (find_cheapest_protocol viable)

/-- strategies.rs `calculate_cost`:
`protocol_fee = (amount as u128 * fee_bps as u128) / 10_000` (exact, since
the product of two `u64` values fits in `u128`), then
`total_cost = amount + protocol_fee as u64`.  The `as u64` narrowing is
`% 2 ^ 64` (silent truncation) and the `u64` addition wraps mod `2 ^ 64`
(release profile).  There is no overflow check and no error besides the
missing-cache-entry case. -/
def calculate_cost (snapshot : Snapshot) (request : FlashLoanRequest)
    (protocol : Protocol) : Except RoutingError Nat :=
  match lookupProtocol snapshot protocol with
  | none => .error (.noData protocol)
  | some data =>
    let protocol_fee := request.amount * data.fee_bps / 10000
    let total_cost := (request.amount + protocol_fee % U64_MOD) % U64_MOD
    .ok total_cost

/-- strategies.rs `generate_execution_plan`: `find_best_protocol` then
`calculate_cost`, failing fast on either error. -/
def generate_execution_plan (config : Config) (snapshot : Snapshot)
    (request : FlashLoanRequest) : Except RoutingError ExecutionPlan :=
  match find_best_protocol config snapshot request with
  | .error e => .error e
  | .ok best_protocol =>
    match calculate_cost snapshot request best_protocol with
    | .error e => .error e
    | .ok total_cost =>
      .ok ⟨best_protocol, request.amount, total_cost, request.user_operation,
           request.callback_recipient, request.callback_payload⟩

/-- strategies.rs `override_protocol`: look up the forced protocol's data,
bail if absent or if its liquidity is below the requested amount, then run
`calculate_cost` and assemble the plan. -/
def override_protocol (config : Config) (snapshot : Snapshot)
    (request : FlashLoanRequest) (protocol : Protocol) :
    Except RoutingError ExecutionPlan :=
  match lookupProtocol snapshot protocol with
  | none => .error (.noData protocol)
  | some data =>
    if data.available_liquidity < request.amount then
      .error (.protocolInsufficientLiquidity protocol)
    else
      match calculate_cost snapshot request protocol with
      | .error e => .error e
      | .ok total_cost =>
        .ok ⟨protocol, request.amount, total_cost, request.user_operation,
             request.callback_recipient, request.callback_payload⟩

/-- main.rs `handle_flash_loan`, plan-selection step: an explicit protocol in
the request routes through `override_protocol`, otherwise through
`generate_execution_plan`. -/
def plan_for_request (config : Config) (snapshot : Snapshot)
    (request : FlashLoanRequest) : Except RoutingError ExecutionPlan :=
  match request.explicit_protocol with
  | some p => override_protocol config snapshot request p
  | none => generate_execution_plan config snapshot request

/-- main.rs `handle_flash_loan`, fee fields of the response:
`protocol_fee = total_cost - amount` (safe on this path: the executor has
already validated `total_cost > amount`),
`service_fee = u64::try_from(amount as u128 * service_fee_bps as u128 / 10_000)`
(errors as HTTP 500 when the quotient exceeds `u64`, modelled as `none`),
`total_fee = protocol_fee + service_fee` (u64 addition, wrapping mod `2 ^ 64`
in release profile). -/
def response_fees (config : Config) (plan : ExecutionPlan) :
    Option (Nat × Nat × Nat) :=
  let protocol_fee := plan.total_cost - plan.amount
  let service_fee := plan.amount * config.service_fee_bps / 10000
  if service_fee < U64_MOD then
    some (protocol_fee, service_fee, (protocol_fee + service_fee) % U64_MOD)
  else
    none

/-! ## Collector (collectors.rs)

A refresh cycle's fetch outcomes are modelled as a function
`fetch : Protocol → Option ProtocolData`: `some` is a successful
`fetch_protocol_data` result, `none` a failure (after the API and on-chain
fallback chain is exhausted). -/

/-- collectors.rs `collect_all_data`: the fixed list of protocols refreshed
each cycle, `[Protocol::Navi, Protocol::Bucket, Protocol::Scallop]`. -/
def allProtocols : List Protocol := [Protocol.Navi, Protocol.Bucket, Protocol.Scallop]

/-- collectors.rs `collect_protocols_data` with `handle_collection_failure`
folded in: for each protocol, insert the freshly fetched data on success;
on failure insert the protocol's entry from the previous snapshot if one
exists, otherwise omit the protocol. -/
def collect_protocols_data (fetch : Protocol → Option ProtocolData)
    (prev : Snapshot) (protocols : List Protocol) : Snapshot :=
  protocols.filterMap (fun p =>
    match fetch p with
    | some data => some (p, data)
    | none => (lookupProtocol prev p).map (fun old => (p, old)))

/-- collectors.rs `update_data_store`: an empty candidate snapshot is
discarded (the store keeps its previous value); a non-empty candidate
replaces the store wholesale. -/
def update_data_store (store new_data : Snapshot) : Snapshot :=
  if new_data.isEmpty then store else new_data

/-- collectors.rs `collect_all_data`: one full refresh cycle over
`allProtocols`, publishing through `update_data_store`. -/
def collect_all_data_step (fetch : Protocol → Option ProtocolData)
    (store : Snapshot) : Snapshot :=
  update_data_store store (collect_protocols_data fetch store allProtocols)

/-! ## Executor (executors.rs) -/

/-- The typed errors behind `validate_execution_plan`'s `eyre::eyre!` failures. -/
inductive ExecError where
  /-- The error "Flash loan amount cannot be zero". -/
  | zeroAmount
  /-- The error "Total cost must be greater than amount (missing fees)". -/
  | costNotAboveAmount
deriving DecidableEq, Repr

/-- executors.rs `validate_execution_plan`: reject a zero amount, then
reject `total_cost <= amount`; an empty user operation only warns. -/
def validate_execution_plan (plan : ExecutionPlan) : Except ExecError Unit :=
  if plan.amount = 0 then .error .zeroAmount
  else if plan.total_cost ≤ plan.amount then .error .costNotAboveAmount
  else .ok ()

/-- executors.rs `estimate_gas_cost`: per-protocol overhead constants. -/
def protocol_overhead : Protocol → Nat
  | .Navi => 1500000
  | .Bucket => 1200000
  | .Scallop => 1800000

/-- executors.rs `estimate_gas_cost` (always succeeds). -/
def estimate_gas_cost (plan : ExecutionPlan) : Nat :=
  let base_transaction_cost := 1000000
  let flash_loan_base_cost := 2000000
  let callback_cost := if plan.callback_recipient.isSome then 5000000 else 0
  let amount_scaling := max (plan.amount / 1000000000) 1
  let scaling_cost := amount_scaling * 100000
  base_transaction_cost + flash_loan_base_cost + protocol_overhead plan.protocol
    + callback_cost + scaling_cost

/-- executors.rs `simulate_transaction_execution`, the hashed content string:
`format!("\x7b\x7d:\x7b\x7d:\x7b\x7d:\x7b\x7d", plan.protocol as u64, plan.amount, plan.total_cost, plan.user_operation)`. -/
def tx_content (plan : ExecutionPlan) : String :=
  toString plan.protocol.discriminant ++ ":" ++ toString plan.amount ++ ":"
    ++ toString plan.total_cost ++ ":" ++ plan.user_operation

/-- executors.rs `simulate_transaction_execution`: validate the plan first,
then build the transaction structure and gas estimate (both infallible),
then hash `tx_content` into the simulated digest.  The blake3/hex digest
computation is abstracted as the parameter `hashHex`. -/
def simulate_transaction_execution (hashHex : String → String)
    (plan : ExecutionPlan) : Except ExecError String :=
  match validate_execution_plan plan with
  | .error e => .error e
  | .ok _ =>
    let _estimated_gas := estimate_gas_cost plan
    .ok (hashHex (tx_content plan))

/-- executors.rs `execute_flash_loan`: delegates to
`simulate_transaction_execution`. -/
def execute_flash_loan (hashHex : String → String) (plan : ExecutionPlan) :
    Except ExecError String :=
  simulate_transaction_execution hashHex plan

/-! ## Helper lemmas -/

theorem isEmptyFalseOfNe (l : Snapshot) (h : l ≠ []) : l.isEmpty = false := by
  cases l with
  | nil => exact absurd rfl h
  | cons a t => rfl

theorem mem_viable_iff (s : Snapshot) (a : Nat) (pd : Protocol × ProtocolData) :
    pd ∈ viable_protocols s a ↔ pd ∈ s ∧ a ≤ pd.2.available_liquidity := by
  simp [viable_protocols, List.mem_filter]

theorem lookupProtocol_mem (s : Snapshot) (p : Protocol) (d : ProtocolData)
    (h : lookupProtocol s p = some d) : (p, d) ∈ s := by
  unfold lookupProtocol at h
  cases hf : s.find? (fun pd => pd.1 = p) with
  | none => rw [hf] at h; simp at h
  | some x =>
    rw [hf] at h
    simp at h
    have hmem := List.mem_of_find?_eq_some hf
    have hkey : x.1 = p := by simpa using List.find?_some hf
    rw [← h, ← hkey, Prod.mk.eta]
    exact hmem

theorem minByFee_eq_none (l : Snapshot) (h : minByFee l = none) : l = [] := by
  cases l with
  | nil => rfl
  | cons a t =>
    exfalso
    cases ht : minByFee t with
    | none => simp [minByFee, ht] at h
    | some y =>
      simp only [minByFee, ht] at h
      split at h <;> simp at h

/-- The result of `minByFee` is an element of the list attaining the minimal
`fee_bps`. -/
theorem minByFee_spec (l : Snapshot) :
    ∀ x, minByFee l = some x →
      x ∈ l ∧ ∀ y ∈ l, x.2.fee_bps ≤ y.2.fee_bps := by
  induction l with
  | nil => intro x h; simp [minByFee] at h
  | cons a t ih =>
    intro x h
    cases ht : minByFee t with
    | none =>
      simp only [minByFee, ht] at h
      cases h
      have htnil : t = [] := minByFee_eq_none t ht
      subst htnil
      refine ⟨List.mem_cons_self a [], ?_⟩
      intro y hy
      cases hy with
      | head => exact le_refl _
      | tail _ hy' => cases hy'
    | some z =>
      simp only [minByFee, ht] at h
      obtain ⟨hz_mem, hz_min⟩ := ih z ht
      by_cases hle : a.2.fee_bps ≤ z.2.fee_bps
      · rw [if_pos hle] at h
        cases h
        refine ⟨List.mem_cons_self a t, ?_⟩
        intro y hy
        cases hy with
        | head => exact le_refl _
        | tail _ hy' => exact le_trans hle (hz_min y hy')
      · rw [if_neg hle] at h
        cases h
        refine ⟨List.mem_cons_of_mem a hz_mem, ?_⟩
        intro y hy
        cases hy with
        | head => exact le_of_not_le hle
        | tail _ hy' => exact hz_min y hy'

theorem minByFee_isSome_of_ne (l : Snapshot) (h : l ≠ []) :
    ∃ x, minByFee l = some x := by
  cases l with
  | nil => exact absurd rfl h
  | cons a t =>
    cases ht : minByFee t with
    | none => exact ⟨a, by simp [minByFee, ht]⟩
    | some y =>
      by_cases hle : a.2.fee_bps ≤ y.2.fee_bps
      · exact ⟨a, by simp [minByFee, ht, hle]⟩
      · exact ⟨y, by simp [minByFee, ht, hle]⟩

theorem maxByLiquidity_eq_none (l : Snapshot) (h : maxByLiquidity l = none) :
    l = [] := by
  cases l with
  | nil => rfl
  | cons a t =>
    exfalso
    cases ht : maxByLiquidity t with
    | none => simp [maxByLiquidity, ht] at h
    | some y =>
      simp only [maxByLiquidity, ht] at h
      split at h <;> simp at h

/-- The result of `maxByLiquidity` is an element of the list attaining the maximal
`available_liquidity`. -/
theorem maxByLiquidity_spec (l : Snapshot) :
    ∀ x, maxByLiquidity l = some x →
      x ∈ l ∧ ∀ y ∈ l, y.2.available_liquidity ≤ x.2.available_liquidity := by
  induction l with
  | nil => intro x h; simp [maxByLiquidity] at h
  | cons a t ih =>
    intro x h
    cases ht : maxByLiquidity t with
    | none =>
      simp only [maxByLiquidity, ht] at h
      cases h
      have htnil : t = [] := maxByLiquidity_eq_none t ht
      subst htnil
      refine ⟨List.mem_cons_self a [], ?_⟩
      intro y hy
      cases hy with
      | head => exact le_refl _
      | tail _ hy' => cases hy'
    | some z =>
      simp only [maxByLiquidity, ht] at h
      obtain ⟨hz_mem, hz_max⟩ := ih z ht
      by_cases hlt : z.2.available_liquidity < a.2.available_liquidity
      · rw [if_pos hlt] at h
        cases h
        refine ⟨List.mem_cons_self a t, ?_⟩
        intro y hy
        cases hy with
        | head => exact le_refl _
        | tail _ hy' => exact le_trans (hz_max y hy') (le_of_lt hlt)
      · rw [if_neg hlt] at h
        cases h
        refine ⟨List.mem_cons_of_mem a hz_mem, ?_⟩
        intro y hy
        cases hy with
        | head => exact le_of_not_lt hlt
        | tail _ hy' => exact hz_max y hy'

theorem maxByLiquidity_isSome_of_ne (l : Snapshot) (h : l ≠ []) :
    ∃ x, maxByLiquidity l = some x := by
  cases l with
  | nil => exact absurd rfl h
  | cons a t =>
    cases ht : maxByLiquidity t with
    | none => exact ⟨a, by simp [maxByLiquidity, ht]⟩
    | some y =>
      by_cases hlt : y.2.available_liquidity < a.2.available_liquidity
      · exact ⟨a, by simp [maxByLiquidity, ht, hlt]⟩
      · exact ⟨y, by simp [maxByLiquidity, ht, hlt]⟩

/-- Every key of a candidate snapshot comes from the refreshed protocol
list: a protocol outside the list is absent from the candidate. -/
theorem lookupCollectOfNotMem (fetch : Protocol → Option ProtocolData)
    (prev : Snapshot) (p : Protocol) :
    ∀ ps : List Protocol, p ∉ ps →
      lookupProtocol (collect_protocols_data fetch prev ps) p = none := by
  intro ps
  induction ps with
  | nil => intro _; rfl
  | cons q t ih =>
    intro hp
    have hq : ¬(q = p) := fun h => hp (h ▸ List.mem_cons_self q t)
    have hpt : p ∉ t := fun h => hp (List.mem_cons_of_mem q h)
    simp only [collect_protocols_data, List.filterMap_cons] at *
    cases hf : fetch q with
    | some d =>
      simp only [lookupProtocol, List.find?, decide_eq_false hq]
      exact ih hpt
    | none =>
      cases hprev : lookupProtocol prev q with
      | some old =>
        simp only [hprev, Option.map]
        simp only [lookupProtocol, List.find?, decide_eq_false hq]
        exact ih hpt
      | none =>
        simp only [hprev, Option.map]
        exact ih hpt

/-- A protocol whose fetch succeeds gets its fresh data into the candidate
snapshot. -/
theorem lookupCollectOfSuccess (fetch : Protocol → Option ProtocolData)
    (prev : Snapshot) (p : Protocol) (d : ProtocolData) (hf : fetch p = some d) :
    ∀ ps : List Protocol, p ∈ ps →
      lookupProtocol (collect_protocols_data fetch prev ps) p = some d := by
  intro ps
  induction ps with
  | nil => intro hp; cases hp
  | cons q t ih =>
    intro hp
    by_cases hq : q = p
    · subst hq
      simp only [collect_protocols_data, List.filterMap_cons, hf]
      simp [lookupProtocol, List.find?]
    · have hpt : p ∈ t := by
        cases hp with
        | head => exact absurd rfl hq
        | tail _ h => exact h
      simp only [collect_protocols_data, List.filterMap_cons] at *
      cases hfq : fetch q with
      | some e =>
        simp only [lookupProtocol, List.find?, decide_eq_false hq]
        exact ih hpt
      | none =>
        cases hprev : lookupProtocol prev q with
        | some old =>
          simp only [hprev, Option.map]
          simp only [lookupProtocol, List.find?, decide_eq_false hq]
          exact ih hpt
        | none =>
          simp only [hprev, Option.map]
          exact ih hpt

/-- A protocol whose fetch fails keeps its previous entry (stale fallback)
in the candidate snapshot. -/
theorem lookupCollectOfFailure (fetch : Protocol → Option ProtocolData)
    (prev : Snapshot) (p : Protocol) (hf : fetch p = none) :
    ∀ ps : List Protocol, p ∈ ps →
      lookupProtocol (collect_protocols_data fetch prev ps) p =
        lookupProtocol prev p := by
  intro ps
  induction ps with
  | nil => intro hp; cases hp
  | cons q t ih =>
    intro hp
    by_cases hq : q = p
    · subst hq
      simp only [collect_protocols_data, List.filterMap_cons, hf]
      cases hprev : lookupProtocol prev q with
      | some old =>
        simp only [hprev, Option.map]
        simp [lookupProtocol, List.find?]
      | none =>
        simp only [hprev, Option.map]
        by_cases hpt : q ∈ t
        · exact (ih hpt).trans hprev
        · exact lookupCollectOfNotMem fetch prev q t hpt
    · have hpt : p ∈ t := by
        cases hp with
        | head => exact absurd rfl hq
        | tail _ h => exact h
      simp only [collect_protocols_data, List.filterMap_cons] at *
      cases hfq : fetch q with
      | some e =>
        simp only [lookupProtocol, List.find?, decide_eq_false hq]
        exact ih hpt
      | none =>
        cases hprev : lookupProtocol prev q with
        | some old =>
          simp only [hprev, Option.map]
          simp only [lookupProtocol, List.find?, decide_eq_false hq]
          exact ih hpt
        | none =>
          simp only [hprev, Option.map]
          exact ih hpt

/-! ## Concrete fixtures

Fee and liquidity values mirror the worked examples of the spec and the
collectors' default data (Navi 8 bps, Bucket 5 bps, Scallop 9 bps;
service fee 30 bps). -/

def exampleConfig : Config :=
  ⟨"https://fullnode.testnet.sui.io:443", "test_private_key", "0x1", "0x1",
   3000, 10000, "cheapest", "0x1", "0x2", "0x3", "0x4", 30⟩

def liquidityConfig : Config :=
  ⟨"https://fullnode.testnet.sui.io:443", "test_private_key", "0x1", "0x1",
   3000, 10000, "highest_liquidity", "0x1", "0x2", "0x3", "0x4", 30⟩

def naviData : ProtocolData := ⟨Protocol.Navi, 8, 10000000, 0⟩

def bucketData : ProtocolData := ⟨Protocol.Bucket, 5, 5000000, 0⟩

def scallopData : ProtocolData := ⟨Protocol.Scallop, 9, 8000000, 0⟩

def exampleSnapshot : Snapshot :=
  [⟨Protocol.Navi, naviData⟩, ⟨Protocol.Bucket, bucketData⟩,
   ⟨Protocol.Scallop, scallopData⟩]

def exampleRequest : FlashLoanRequest :=
  ⟨"SUI", 1000000, RouteMode.BestCost, none, "arbitrage", none, none⟩

/-- The plan `generate_execution_plan` produces for `exampleRequest` on
`exampleSnapshot` (Bucket selected, protocol fee 500). -/
def examplePlanBucket : ExecutionPlan :=
  ⟨Protocol.Bucket, 1000000, 1000500, "arbitrage", none, none⟩

/-! ## Claims -/

/-- C1: the claim states that `calculate_cost` returns
`amount + floor(amount * fee_bps / 10_000) + floor(amount * service_fee_bps / 10_000)`,
i.e. that the service fee is part of the plan's `total_cost`.  It is not:
on the worked example (amount 1,000,000, Bucket at 5 bps, service fee
30 bps) `calculate_cost` returns 1,000,500, not the claimed 1,003,500. -/
theorem c1_counterexample :
    calculate_cost exampleSnapshot exampleRequest Protocol.Bucket = .ok 1000500 ∧
    (1000500 : Nat) ≠
      1000000 + 1000000 * 5 / 10000 + 1000000 * 30 / 10000 := by
  exact ⟨rfl, by decide⟩

/-- C1 (amended): `calculate_cost` returns
`amount + floor(amount * fee_bps / 10_000)` (no service fee) whenever the
sum fits in `u64`; the service fee is computed separately by
`handle_flash_loan`, whose response carries
`total_fee = protocol_fee + service_fee`, equal to 3,500 on the worked
example (500 protocol fee at 5 bps plus 3,000 service fee at 30 bps on
amount 1,000,000). -/
theorem c1_no_service_fee_in_plan (snapshot : Snapshot)
    (request : FlashLoanRequest) (protocol : Protocol) (d : ProtocolData)
    (hd : lookupProtocol snapshot protocol = some d)
    (hfit : request.amount + request.amount * d.fee_bps / 10000 < U64_MOD) :
    calculate_cost snapshot request protocol =
      .ok (request.amount + request.amount * d.fee_bps / 10000) ∧
    response_fees exampleConfig examplePlanBucket = some (500, 3000, 3500) := by
  constructor
  · have hfee : request.amount * d.fee_bps / 10000 < U64_MOD :=
      lt_of_le_of_lt (Nat.le_add_left _ _) hfit
    simp only [calculate_cost, hd]
    rw [Nat.mod_eq_of_lt hfee, Nat.mod_eq_of_lt hfit]
  · decide

/-- C1 witness: the amended statement instantiated on the worked example. -/
theorem c1_no_service_fee_in_plan_witness :
    lookupProtocol exampleSnapshot Protocol.Bucket = some bucketData ∧
    exampleRequest.amount +
      exampleRequest.amount * bucketData.fee_bps / 10000 < U64_MOD ∧
    (calculate_cost exampleSnapshot exampleRequest Protocol.Bucket =
      .ok (exampleRequest.amount +
        exampleRequest.amount * bucketData.fee_bps / 10000) ∧
     response_fees exampleConfig examplePlanBucket = some (500, 3000, 3500)) :=
  ⟨rfl, by decide,
   c1_no_service_fee_in_plan exampleSnapshot exampleRequest Protocol.Bucket
     bucketData rfl (by decide)⟩

/-- Fixture for the fee-overflow case: a fee rate of 20,000 bps (200%) is
representable in the `u64` field `fee_bps` and is accepted unchecked from
the remote APIs. -/
def overflowData : ProtocolData := ⟨Protocol.Navi, 20000, 18446744073709551615, 0⟩

def overflowSnapshot : Snapshot := [⟨Protocol.Navi, overflowData⟩]

def overflowRequest : FlashLoanRequest :=
  ⟨"SUI", 10000000000000000000, RouteMode.BestCost, none, "op", none, none⟩

/-- C2: the claim states that `calculate_cost` returns a `FeeOverflow`
error whenever `amount` plus the fee does not fit in `u64`, never silently
truncating.  The code has no such check: at amount 10^19 with
`fee_bps = 20_000` the true total is 3x10^19 (beyond `u64`), the `u128`
fee 2x10^19 is silently truncated by the `as u64` narrowing, and
`calculate_cost` returns `Ok 11_553_255_926_290_448_384` (this value is
below `2 ^ 64`, so debug and release profiles agree on it). -/
theorem c2_overflow_silently_truncated :
    calculate_cost overflowSnapshot overflowRequest Protocol.Navi =
      .ok 11553255926290448384 ∧
    U64_MOD ≤ overflowRequest.amount +
      overflowRequest.amount * overflowData.fee_bps / 10000 ∧
    (11553255926290448384 : Nat) ≠ overflowRequest.amount +
      overflowRequest.amount * overflowData.fee_bps / 10000 := by
  exact ⟨rfl, by decide, by decide⟩

/-- C3: under the "cheapest" (`BestCost`) policy, for every non-empty
viable set `find_best_protocol` returns a protocol of the viable set whose
`fee_bps` is minimal in that set. -/
theorem c3_cheapest_selects_min_fee (config : Config) (snapshot : Snapshot)
    (request : FlashLoanRequest)
    (hstrat : config.strategy = "cheapest")
    (hne : viable_protocols snapshot request.amount ≠ []) :
    ∃ p d, find_best_protocol config snapshot request = .ok p ∧
      (p, d) ∈ viable_protocols snapshot request.amount ∧
      ∀ q ∈ viable_protocols snapshot request.amount,
        d.fee_bps ≤ q.2.fee_bps := by
  obtain ⟨x, hx⟩ := minByFee_isSome_of_ne _ hne
  obtain ⟨hmem, hmin⟩ := minByFee_spec _ x hx
  refine ⟨x.1, x.2, ?_, by simpa using hmem, hmin⟩
  simp [find_best_protocol, isEmptyFalseOfNe _ hne, hstrat,
    find_cheapest_protocol, hx]

/-- C3 witness: on the worked-example snapshot with amount 1,000,000 the
selection succeeds and the selected protocol has minimal fee. -/
theorem c3_cheapest_selects_min_fee_witness :
    exampleConfig.strategy = "cheapest" ∧
    viable_protocols exampleSnapshot exampleRequest.amount ≠ [] ∧
    ∃ p d, find_best_protocol exampleConfig exampleSnapshot exampleRequest = .ok p ∧
      (p, d) ∈ viable_protocols exampleSnapshot exampleRequest.amount ∧
      ∀ q ∈ viable_protocols exampleSnapshot exampleRequest.amount,
        d.fee_bps ≤ q.2.fee_bps :=
  ⟨rfl, by decide,
   c3_cheapest_selects_min_fee exampleConfig exampleSnapshot exampleRequest
     rfl (by decide)⟩

/-- C4: under the "highest_liquidity" (`BestLiquidity`) policy, for every
non-empty viable set `find_best_protocol` returns a protocol of the viable
set whose `available_liquidity` is maximal in that set; in particular the
returned protocol satisfies the liquidity bound, so a protocol excluded
for insufficient liquidity is never selected. -/
theorem c4_best_liquidity_selects_max (config : Config) (snapshot : Snapshot)
    (request : FlashLoanRequest)
    (hstrat : config.strategy = "highest_liquidity")
    (hne : viable_protocols snapshot request.amount ≠ []) :
    ∃ p d, find_best_protocol config snapshot request = .ok p ∧
      (p, d) ∈ viable_protocols snapshot request.amount ∧
      request.amount ≤ d.available_liquidity ∧
      ∀ q ∈ viable_protocols snapshot request.amount,
        q.2.available_liquidity ≤ d.available_liquidity := by
  obtain ⟨x, hx⟩ := maxByLiquidity_isSome_of_ne _ hne
  obtain ⟨hmem, hmax⟩ := maxByLiquidity_spec _ x hx
  have hliq : request.amount ≤ x.2.available_liquidity :=
    ((mem_viable_iff snapshot request.amount x).mp hmem).2
  refine ⟨x.1, x.2, ?_, by simpa using hmem, hliq, hmax⟩
  simp [find_best_protocol, isEmptyFalseOfNe _ hne, hstrat,
    find_highest_liquidity_protocol, hx]

/-- C4 witness: custom liquidities (Bucket 400,000 / Navi 2,000,000 /
Scallop 300,000) with amount 1,000,000: only Navi is viable and it is
selected. -/
theorem c4_best_liquidity_selects_max_witness :
    liquidityConfig.strategy = "highest_liquidity" ∧
    viable_protocols
      [(Protocol.Bucket, ⟨Protocol.Bucket, 5, 400000, 0⟩),
       (Protocol.Navi, ⟨Protocol.Navi, 8, 2000000, 0⟩),
       (Protocol.Scallop, ⟨Protocol.Scallop, 9, 300000, 0⟩)]
      exampleRequest.amount ≠ [] ∧
    ∃ p d, find_best_protocol liquidityConfig
        [(Protocol.Bucket, ⟨Protocol.Bucket, 5, 400000, 0⟩),
         (Protocol.Navi, ⟨Protocol.Navi, 8, 2000000, 0⟩),
         (Protocol.Scallop, ⟨Protocol.Scallop, 9, 300000, 0⟩)]
        exampleRequest = .ok p ∧
      (p, d) ∈ viable_protocols
        [(Protocol.Bucket, ⟨Protocol.Bucket, 5, 400000, 0⟩),
         (Protocol.Navi, ⟨Protocol.Navi, 8, 2000000, 0⟩),
         (Protocol.Scallop, ⟨Protocol.Scallop, 9, 300000, 0⟩)]
        exampleRequest.amount ∧
      exampleRequest.amount ≤ d.available_liquidity ∧
      ∀ q ∈ viable_protocols
        [(Protocol.Bucket, ⟨Protocol.Bucket, 5, 400000, 0⟩),
         (Protocol.Navi, ⟨Protocol.Navi, 8, 2000000, 0⟩),
         (Protocol.Scallop, ⟨Protocol.Scallop, 9, 300000, 0⟩)]
        exampleRequest.amount,
        q.2.available_liquidity ≤ d.available_liquidity :=
  ⟨rfl, by decide,
   c4_best_liquidity_selects_max liquidityConfig
     [(Protocol.Bucket, ⟨Protocol.Bucket, 5, 400000, 0⟩),
      (Protocol.Navi, ⟨Protocol.Navi, 8, 2000000, 0⟩),
      (Protocol.Scallop, ⟨Protocol.Scallop, 9, 300000, 0⟩)]
     exampleRequest rfl (by decide)⟩

/-- C5: when every cached protocol's liquidity is below the requested
amount, plan generation fails on every path: `find_best_protocol` (and so
`generate_execution_plan`) fails with the insufficient-liquidity error
because the viable set is empty, `override_protocol` fails with the
per-protocol insufficient-liquidity error whenever the forced protocol has
a cache entry (and with the no-data error otherwise), and
`handle_flash_loan`'s plan selection fails for both the explicit and the
strategy route. -/
theorem c5_liquidity_exhaustion (config : Config) (snapshot : Snapshot)
    (request : FlashLoanRequest)
    (h : ∀ pd ∈ snapshot, pd.2.available_liquidity < request.amount) :
    find_best_protocol config snapshot request =
      .error (.insufficientLiquidity request.amount) ∧
    generate_execution_plan config snapshot request =
      .error (.insufficientLiquidity request.amount) ∧
    (∀ p d, lookupProtocol snapshot p = some d →
      override_protocol config snapshot request p =
        .error (.protocolInsufficientLiquidity p)) ∧
    (∀ p, ∃ e, override_protocol config snapshot request p = .error e) ∧
    (∃ e, plan_for_request config snapshot request = .error e) := by
  have hvi : viable_protocols snapshot request.amount = [] := by
    simp only [viable_protocols]
    rw [List.filter_eq_nil_iff]
    intro pd hpd
    simpa using Nat.not_le.mpr (h pd hpd)
  have hfb : find_best_protocol config snapshot request =
      .error (.insufficientLiquidity request.amount) := by
    simp [find_best_protocol, hvi]
  have hover : ∀ p d, lookupProtocol snapshot p = some d →
      override_protocol config snapshot request p =
        .error (.protocolInsufficientLiquidity p) := by
    intro p d hd
    have hlt : d.available_liquidity < request.amount := by
      have hmem := lookupProtocol_mem snapshot p d hd
      simpa using h (p, d) hmem
    simp [override_protocol, hd, hlt]
  have hoverAll : ∀ p, ∃ e,
      override_protocol config snapshot request p = .error e := by
    intro p
    cases hd : lookupProtocol snapshot p with
    | none => exact ⟨.noData p, by simp [override_protocol, hd]⟩
    | some d => exact ⟨.protocolInsufficientLiquidity p, hover p d hd⟩
  refine ⟨hfb, by simp [generate_execution_plan, hfb], hover, hoverAll, ?_⟩
  cases hep : request.explicit_protocol with
  | some p =>
    obtain ⟨e, he⟩ := hoverAll p
    exact ⟨e, by simp [plan_for_request, hep, he]⟩
  | none =>
    exact ⟨.insufficientLiquidity request.amount,
      by simp [plan_for_request, hep, generate_execution_plan, hfb]⟩

/-- Request used to exercise liquidity exhaustion: 1,000,000,000,000,000
exceeds every protocol's liquidity in the worked-example snapshot; it also
pins Bucket explicitly, exercising the override path. -/
def exhaustRequest : FlashLoanRequest :=
  ⟨"SUI", 1000000000000000, RouteMode.BestCost, some Protocol.Bucket,
   "liquidity_test", none, none⟩

/-- C5 witness: exhaustion on the worked-example snapshot, both routes. -/
theorem c5_liquidity_exhaustion_witness :
    (∀ pd ∈ exampleSnapshot,
      pd.2.available_liquidity < exhaustRequest.amount) ∧
    find_best_protocol exampleConfig exampleSnapshot exhaustRequest =
      .error (.insufficientLiquidity exhaustRequest.amount) ∧
    (∃ e, plan_for_request exampleConfig exampleSnapshot exhaustRequest =
      .error e) :=
  ⟨by decide,
   (c5_liquidity_exhaustion exampleConfig exampleSnapshot exhaustRequest
     (by decide)).1,
   (c5_liquidity_exhaustion exampleConfig exampleSnapshot exhaustRequest
     (by decide)).2.2.2.2⟩

/-- A list whose `isEmpty` is `false` is not `[]`. -/
theorem neNilOfIsEmptyFalse (l : Snapshot) (h : l.isEmpty = false) :
    l ≠ [] := by
  cases l with
  | nil => simp at h
  | cons a t => simp

/-- C6: stale-data fallback.  In a refresh cycle where the fetch succeeds
for protocol `a` and fails for protocol `b`, and `b` has an entry in the
previous snapshot, the published snapshot holds the fresh data for `a` and
the previous cycle's data for `b`; `b` is not removed. -/
theorem c6_stale_fallback (fetch : Protocol → Option ProtocolData)
    (prev : Snapshot) (a b : Protocol) (fresh old : ProtocolData)
    (ha : fetch a = some fresh) (hb : fetch b = none)
    (hprev : lookupProtocol prev b = some old) :
    lookupProtocol (collect_all_data_step fetch prev) a = some fresh ∧
    lookupProtocol (collect_all_data_step fetch prev) b = some old := by
  have hamem : a ∈ allProtocols := by cases a <;> simp [allProtocols]
  have hbmem : b ∈ allProtocols := by cases b <;> simp [allProtocols]
  have hA := lookupCollectOfSuccess fetch prev a fresh ha allProtocols hamem
  have hB := (lookupCollectOfFailure fetch prev b hb allProtocols hbmem).trans
    hprev
  have hcand : collect_protocols_data fetch prev allProtocols ≠ [] := by
    intro hnil
    rw [hnil] at hA
    simp [lookupProtocol] at hA
  simp only [collect_all_data_step, update_data_store,
    isEmptyFalseOfNe _ hcand]
  simp only [Bool.false_eq_true, if_false]
  exact ⟨hA, hB⟩

/-- Fetch outcome used in the C6 witness: Navi succeeds with refreshed
data, Bucket and Scallop fail. -/
def mixedFetch : Protocol → Option ProtocolData
  | .Navi => some ⟨Protocol.Navi, 8, 12000000, 1⟩
  | .Bucket => none
  | .Scallop => none

/-- C6 witness: a concrete cycle where Navi is refreshed and Bucket keeps
its stale entry. -/
theorem c6_stale_fallback_witness :
    mixedFetch Protocol.Navi = some ⟨Protocol.Navi, 8, 12000000, 1⟩ ∧
    mixedFetch Protocol.Bucket = none ∧
    lookupProtocol exampleSnapshot Protocol.Bucket = some bucketData ∧
    (lookupProtocol (collect_all_data_step mixedFetch exampleSnapshot)
        Protocol.Navi = some ⟨Protocol.Navi, 8, 12000000, 1⟩ ∧
     lookupProtocol (collect_all_data_step mixedFetch exampleSnapshot)
        Protocol.Bucket = some bucketData) :=
  ⟨rfl, rfl, rfl,
   c6_stale_fallback mixedFetch exampleSnapshot Protocol.Navi
     Protocol.Bucket ⟨Protocol.Navi, 8, 12000000, 1⟩ bucketData rfl rfl rfl⟩

/-- C7: the cache never regresses to empty once populated.  An empty
candidate snapshot leaves the store untouched (`update_data_store` keeps
the previous snapshot), and consequently a store that is non-empty stays
non-empty across any sequence of refresh cycles, whatever each cycle's
fetch outcomes are. -/
theorem c7_cache_never_regresses :
    (∀ store cand : Snapshot, cand.isEmpty = true →
      update_data_store store cand = store) ∧
    (∀ (fetches : List (Protocol → Option ProtocolData)) (store : Snapshot),
      store ≠ [] →
      List.foldl (fun s fetch => collect_all_data_step fetch s) store
        fetches ≠ []) := by
  constructor
  · intro store cand hcand
    simp [update_data_store, hcand]
  · intro fetches
    induction fetches with
    | nil => intro store h; simpa using h
    | cons f t ih =>
      intro store h
      simp only [List.foldl_cons]
      apply ih
      simp only [collect_all_data_step, update_data_store]
      cases hc : (collect_protocols_data f store allProtocols).isEmpty with
      | true => simpa using h
      | false =>
        simp only [Bool.false_eq_true, if_false]
        exact neNilOfIsEmptyFalse _ hc

/-- A refresh in which every protocol's fetch fails, on top of an empty
previous snapshot: the candidate comes out empty. -/
def failingFetch : Protocol → Option ProtocolData := fun _ => none

/-- C7 witness: one store-preserving empty refresh and one non-empty store
surviving a refresh cycle in which every fetch fails. -/
theorem c7_cache_never_regresses_witness :
    ([] : Snapshot).isEmpty = true ∧
    update_data_store exampleSnapshot [] = exampleSnapshot ∧
    exampleSnapshot ≠ [] ∧
    List.foldl (fun s fetch => collect_all_data_step fetch s)
      exampleSnapshot [failingFetch] ≠ [] :=
  ⟨rfl, c7_cache_never_regresses.1 exampleSnapshot [] rfl, by decide,
   c7_cache_never_regresses.2 [failingFetch] exampleSnapshot (by decide)⟩

/-! ### C8 fixtures: two protocols tied on the minimal fee, in the two
iteration orders a `HashMap` may present. -/

def tieNavi : ProtocolData := ⟨Protocol.Navi, 5, 2000000, 0⟩

def tieBucket : ProtocolData := ⟨Protocol.Bucket, 5, 2000000, 0⟩

def tieSnapshotA : Snapshot :=
  [⟨Protocol.Navi, tieNavi⟩, ⟨Protocol.Bucket, tieBucket⟩]

def tieSnapshotB : Snapshot :=
  [⟨Protocol.Bucket, tieBucket⟩, ⟨Protocol.Navi, tieNavi⟩]

/-- C8: the claim states that under a fee tie the winner is fixed by a
total order over protocols rather than by incidental map-iteration order.
It is not: the two snapshots below hold exactly the same entries (they are
permutations of one another, i.e. the same `HashMap` contents presented in
two iteration orders, both of which the unspecified `HashMap` order
permits), both Navi and Bucket quote 5 bps, and `find_best_protocol`
returns Navi for one order and Bucket for the other. -/
theorem c8_counterexample :
    tieSnapshotA.Perm tieSnapshotB ∧
    find_best_protocol exampleConfig tieSnapshotA exampleRequest =
      .ok Protocol.Navi ∧
    find_best_protocol exampleConfig tieSnapshotB exampleRequest =
      .ok Protocol.Bucket := by
  exact ⟨List.Perm.swap _ _ _, rfl, rfl⟩

/-- C8 (amended): for a fixed iteration sequence the selection is a pure
function of the snapshot, and the selection key is order-independent —
on any two iteration orders of the same cache contents the "cheapest"
policy picks (possibly different) protocols with the same, minimal,
`fee_bps` — but the winner itself is decided by iteration order under a
tie, not by a fixed total order over `Protocol`. -/
theorem c8_selection_key_deterministic (config : Config)
    (request : FlashLoanRequest) (l1 l2 : Snapshot)
    (hperm : l1.Perm l2) (hstrat : config.strategy = "cheapest")
    (hne : viable_protocols l1 request.amount ≠ []) :
    ∃ p1 p2 d1 d2,
      find_best_protocol config l1 request = .ok p1 ∧
      find_best_protocol config l2 request = .ok p2 ∧
      (p1, d1) ∈ viable_protocols l1 request.amount ∧
      (p2, d2) ∈ viable_protocols l2 request.amount ∧
      d1.fee_bps = d2.fee_bps := by
  have hvperm : (viable_protocols l1 request.amount).Perm
      (viable_protocols l2 request.amount) := hperm.filter _
  have hne2 : viable_protocols l2 request.amount ≠ [] := by
    intro h2
    rw [h2] at hvperm
    exact hne hvperm.eq_nil
  obtain ⟨x1, hx1⟩ := minByFee_isSome_of_ne _ hne
  obtain ⟨x2, hx2⟩ := minByFee_isSome_of_ne _ hne2
  obtain ⟨hm1, hmin1⟩ := minByFee_spec _ x1 hx1
  obtain ⟨hm2, hmin2⟩ := minByFee_spec _ x2 hx2
  refine ⟨x1.1, x2.1, x1.2, x2.2, ?_, ?_, by simpa using hm1,
    by simpa using hm2, ?_⟩
  · simp [find_best_protocol, isEmptyFalseOfNe _ hne, hstrat,
      find_cheapest_protocol, hx1]
  · simp [find_best_protocol, isEmptyFalseOfNe _ hne2, hstrat,
      find_cheapest_protocol, hx2]
  · exact le_antisymm (hmin1 x2 (hvperm.symm.subset hm2))
      (hmin2 x1 (hvperm.subset hm1))

/-- C8 witness: the amended statement on the tied snapshots. -/
theorem c8_selection_key_deterministic_witness :
    tieSnapshotA.Perm tieSnapshotB ∧
    exampleConfig.strategy = "cheapest" ∧
    viable_protocols tieSnapshotA exampleRequest.amount ≠ [] ∧
    ∃ p1 p2 d1 d2,
      find_best_protocol exampleConfig tieSnapshotA exampleRequest = .ok p1 ∧
      find_best_protocol exampleConfig tieSnapshotB exampleRequest = .ok p2 ∧
      (p1, d1) ∈ viable_protocols tieSnapshotA exampleRequest.amount ∧
      (p2, d2) ∈ viable_protocols tieSnapshotB exampleRequest.amount ∧
      d1.fee_bps = d2.fee_bps :=
  ⟨List.Perm.swap _ _ _, rfl, by decide,
   c8_selection_key_deterministic exampleConfig exampleRequest tieSnapshotA
     tieSnapshotB (List.Perm.swap _ _ _) rfl (by decide)⟩

/-- C9: the claim states that the integer discriminant is preserved in the
serialized/wire form of `Protocol`.  It is not: serde serializes a unit
variant as its name string, so `Bucket` (discriminant 1) serializes to
`"Bucket"` and the integer form `1` is not even accepted on
deserialization. -/
theorem c9_counterexample :
    Protocol.discriminant Protocol.Bucket = 1 ∧
    serializeProtocol Protocol.Bucket = "\"Bucket\"" ∧
    serializeProtocol Protocol.Bucket ≠ "1" ∧
    deserializeProtocol "1" = none := by
  exact ⟨rfl, rfl, by decide, rfl⟩

/-- C9 (amended): `Protocol` is the closed enumeration
Navi / Bucket / Scallop with fixed integer discriminants 0, 1, 2 (used by
the `as` casts in the executor's transaction content), and every value
round-trips unchanged through serde serialization — whose wire form is the
variant-name string, not the integer discriminant. -/
theorem c9_closed_enum_roundtrip :
    (∀ p : Protocol, p = Protocol.Navi ∨ p = Protocol.Bucket ∨
      p = Protocol.Scallop) ∧
    Protocol.discriminant Protocol.Navi = 0 ∧
    Protocol.discriminant Protocol.Bucket = 1 ∧
    Protocol.discriminant Protocol.Scallop = 2 ∧
    (∀ p : Protocol, deserializeProtocol (serializeProtocol p) = some p) := by
  refine ⟨fun p => ?_, rfl, rfl, rfl, fun p => ?_⟩
  · cases p
    · exact Or.inl rfl
    · exact Or.inr (Or.inl rfl)
    · exact Or.inr (Or.inr rfl)
  · cases p <;> rfl

/-- Plans used in the C10 witness. -/
def zeroAmountPlan : ExecutionPlan :=
  ⟨Protocol.Navi, 0, 0, "invalid_test", none, none⟩

def feeFreePlan : ExecutionPlan :=
  ⟨Protocol.Navi, 1000000, 1000000, "zero_fee", none, none⟩

def acceptedPlan : ExecutionPlan :=
  ⟨Protocol.Navi, 1000000000, 1006000000, "test_operation", none, none⟩

/-- C10: `execute_flash_loan` validates before simulating: a plan with a
zero amount is rejected with the zero-amount error, a plan whose
`total_cost` does not exceed its `amount` (in particular a zero-fee plan
with `total_cost == amount`) is rejected with an error — independently of
the digest computation, which is never reached — and every accepted plan
satisfies `total_cost > amount > 0`. -/
theorem c10_plan_validation (hashHex : String → String)
    (plan : ExecutionPlan) :
    (plan.amount = 0 →
      execute_flash_loan hashHex plan = .error .zeroAmount) ∧
    (plan.total_cost ≤ plan.amount →
      ∃ e, execute_flash_loan hashHex plan = .error e) ∧
    (∀ s, execute_flash_loan hashHex plan = .ok s →
      0 < plan.amount ∧ plan.amount < plan.total_cost) := by
  refine ⟨?_, ?_, ?_⟩
  · intro h
    simp [execute_flash_loan, simulate_transaction_execution,
      validate_execution_plan, h]
  · intro h
    by_cases h0 : plan.amount = 0
    · exact ⟨.zeroAmount, by simp [execute_flash_loan,
        simulate_transaction_execution, validate_execution_plan, h0]⟩
    · exact ⟨.costNotAboveAmount, by simp [execute_flash_loan,
        simulate_transaction_execution, validate_execution_plan, h0, h]⟩
  · intro s hs
    by_cases h0 : plan.amount = 0
    · simp [execute_flash_loan, simulate_transaction_execution,
        validate_execution_plan, h0] at hs
    · by_cases hc : plan.total_cost ≤ plan.amount
      · simp [execute_flash_loan, simulate_transaction_execution,
          validate_execution_plan, h0, hc] at hs
      · exact ⟨Nat.pos_of_ne_zero h0, lt_of_not_le hc⟩

/-- C10 witness: a zero-amount plan and a fee-free plan are both rejected
(whatever the digest function), and an accepted plan obeys
`total_cost > amount > 0`. -/
theorem c10_plan_validation_witness :
    zeroAmountPlan.amount = 0 ∧
    execute_flash_loan id zeroAmountPlan = .error .zeroAmount ∧
    feeFreePlan.total_cost ≤ feeFreePlan.amount ∧
    (∃ e, execute_flash_loan id feeFreePlan = .error e) ∧
    (0 < acceptedPlan.amount ∧ acceptedPlan.amount < acceptedPlan.total_cost) :=
  ⟨rfl, (c10_plan_validation id zeroAmountPlan).1 rfl, by decide,
   (c10_plan_validation id feeFreePlan).2.1 (by decide),
   (c10_plan_validation id acceptedPlan).2.2 (id (tx_content acceptedPlan))
     rfl⟩

end SuiFlash
